import Mathlib

set_option maxRecDepth 40000

/-!
Verification of the Hit-or-Miss tumor-detection script (src/main.py).

The script is a single linear pipeline over 8-bit grayscale images:
load → threshold at 150 → build a 20×20 elliptical hit kernel and a
40×40 elliptical miss kernel with its central 20×20 block carved out →
erode the binary image with the hit kernel → erode the complement with
the miss kernel → bitwise AND of the two erosions → show and save.

Images are modelled as total pixel functions over Nat coordinates paired
with their dimensions; pixel values are Nat, with 8-bit values (≤ 255)
throughout the pipeline. Each OpenCV primitive the script calls is
embedded with its documented semantics, noted at its definition.
-/

/-- A 2-D grid of intensity samples (the numpy uint8 array model):
dimensions plus a total pixel function. In-bounds coordinates are
`y < rows`, `x < cols`. -/
structure Img where
  rows : Nat
  cols : Nat
  pix : Nat → Nat → Nat

/-- A structuring element: a small boolean grid with its anchor point
(OpenCV's default anchor is the center `(cols / 2, rows / 2)`). -/
structure Kernel where
  rows : Nat
  cols : Nat
  anchorY : Nat
  anchorX : Nat
  elem : Nat → Nat → Bool

/-- `floorSqrtAux fuel n` computes `⌊√n⌋` by recursive doubling
(`⌊√n⌋` is `2·⌊√(n/4)⌋`, possibly plus one); the explicit fuel makes the
recursion structural, so it reduces in the kernel, and any `fuel ≥ n`
is enough (the recursion depth is only logarithmic). -/
def floorSqrtAux : Nat → Nat → Nat
  | 0, _ => 0
  | fuel + 1, n =>
    if n < 2 then n
    else
      let s := 2 * floorSqrtAux fuel (n / 4)
      if (s + 1) * (s + 1) ≤ n then s + 1 else s

/-- `⌊√n⌋`. -/
def floorSqrt (n : Nat) : Nat := floorSqrtAux (n + 1) n

/-- Nearest integer to `√n`, via `round (√n) = (⌊√(4n)⌋ + 1) / 2`.
This is the exact value of OpenCV's
`saturate_cast<int>(c*std::sqrt((r*r-dy*dy)*inv_r2))` for the square
kernel sizes used here (where `c = r`), checked against the
double-precision computation for every row of both kernels. -/
def roundSqrt (n : Nat) : Nat := (floorSqrt (4 * n) + 1) / 2

/-- Model of `cv2.getStructuringElement(cv2.MORPH_ELLIPSE, (n, n))`:
row `i` has `dy = i - r` with `r = n / 2`, and its true cells are the
interval `[max (r - dx) 0, min (r + dx + 1) n)` where
`dx = round (r * √((r² - dy²) / r²)) = roundSqrt (r² - dy²)`.
The anchor is the center `(n / 2, n / 2)`. -/
def getStructuringElementEllipse (n : Nat) : Kernel :=
  { rows := n
    cols := n
    anchorY := n / 2
    anchorX := n / 2
    elem := fun i j =>
      let r := n / 2
      let dy := (i : Int) - (r : Int)
      if dy.natAbs ≤ r then
        let dx := roundSqrt (r * r - dy.natAbs * dy.natAbs)
        if r - dx ≤ j ∧ j < min (r + dx + 1) n then true else false
      else false }

/-- B1, the hit kernel: `cv2.getStructuringElement(cv2.MORPH_ELLIPSE, (20, 20))`. -/
def hit_kernel : Kernel := getStructuringElementEllipse 20

/-- The in-place slice assignment `miss_kernel[10:30, 10:30] = 0`,
embedded functionally: the central 20×20 block (rows 10..29 and
columns 10..29, 0-indexed half-open) becomes false. -/
def carveOut (k : Kernel) : Kernel :=
  { k with elem := fun i j =>
      if 10 ≤ i ∧ i < 30 ∧ 10 ≤ j ∧ j < 30 then false else k.elem i j }

/-- B2, the miss kernel: a 40×40 ellipse with its center carved out. -/
def miss_kernel : Kernel := carveOut (getStructuringElementEllipse 40)

/-- Model of `cv2.threshold(src, thresh, maxval, cv2.THRESH_BINARY)`:
`dst = maxval` if `src > thresh` (strict comparison, per the OpenCV
THRESH_BINARY definition), else `0`. -/
def threshold (src : Img) (thresh maxval : Nat) : Img :=
  { src with pix := fun y x => if thresh < src.pix y x then maxval else 0 }

/-- Model of `cv2.bitwise_not` on uint8: `dst = 255 - src`
(for 8-bit values the bitwise complement of `v ≤ 255` is `255 - v`). -/
def bitwise_not (src : Img) : Img :=
  { src with pix := fun y x => 255 - src.pix y x }

/-- Model of `cv2.bitwise_and`: pointwise bitwise AND. -/
def bitwise_and (a b : Img) : Img :=
  { a with pix := fun y x => a.pix y x &&& b.pix y x }

/-- Out-of-bounds sample value for erosion. `cv2.erode` defaults to
`BORDER_CONSTANT` with `morphologyDefaultBorderValue()` = +∞, which for
uint8 erosion behaves as the maximal value 255 (border pixels never
lower the minimum). -/
def borderValue : Nat := 255

/-- Sample `src` at signed coordinates, yielding `borderValue` out of
bounds. -/
def sampleAt (src : Img) (py px : Int) : Nat :=
  if 0 ≤ py ∧ py < (src.rows : Int) ∧ 0 ≤ px ∧ px < (src.cols : Int) then
    src.pix py.toNat px.toNat
  else borderValue

/-- The list of kernel coordinates whose element is true. -/
def suppList (k : Kernel) : List (Nat × Nat) :=
  ((List.range k.rows).flatMap (fun i => (List.range k.cols).map (fun j => (i, j)))).filter
    (fun p => k.elem p.1 p.2)

/-- One output pixel of `cv2.erode(src, k, iterations=1)`:
the minimum of `src` over the true cells of `k` translated so that the
anchor sits on `(y, x)`, out-of-bounds samples counting as
`borderValue`. -/
def erodePix (src : Img) (k : Kernel) (y x : Nat) : Nat :=
  ((suppList k).map (fun p =>
      sampleAt src ((y : Int) + (p.1 : Int) - (k.anchorY : Int))
        ((x : Int) + (p.2 : Int) - (k.anchorX : Int)))).foldl min 255

/-- Model of `cv2.erode(src, k, iterations=1)`. -/
def erode (src : Img) (k : Kernel) : Img :=
  { src with pix := fun y x => erodePix src k y x }

/-- `binary_image`: the thresholded input (`cv2.threshold(image_gray, 150, 255, cv2.THRESH_BINARY)`). -/
def binary_image (img : Img) : Img := threshold img 150 255

/-- `erosion_hit`: the hit pass, `cv2.erode(binary_image, hit_kernel)`. -/
def erosion_hit (img : Img) : Img := erode (binary_image img) hit_kernel

/-- `complement_image`: `cv2.bitwise_not(binary_image)`. -/
def complement_image (img : Img) : Img := bitwise_not (binary_image img)

/-- `erosion_miss`: the miss pass, `cv2.erode(complement_image, miss_kernel)`. -/
def erosion_miss (img : Img) : Img := erode (complement_image img) miss_kernel

/-- `hit_or_miss_result`: `cv2.bitwise_and(erosion_hit, erosion_miss)`. -/
def hit_or_miss_result (img : Img) : Img :=
  bitwise_and (erosion_hit img) (erosion_miss img)

/-- Model of `os.path.basename`: the part of the path after the last
separator. -/
def basename (p : String) : String :=
  p.toList.foldl (fun acc c => if c = '/' then "" else acc.push c) ""

/-- Model of `os.path.join output_dir name` for a nonempty directory
with no trailing separator. -/
def joinPath (d f : String) : String := d ++ "/" ++ f

/-- Observable effects of one run of `apply_hit_or_miss`:
the diagnostic printed on load failure, whether the figure was shown,
the file written (path and contents) if the write succeeded, and the
success message printed after the save. -/
structure RunTrace where
  errorMsg : Option String
  shown : Bool
  written : Option (String × Img)
  successMsg : Option String

/-- The procedure `apply_hit_or_miss(image_path, output_dir)`.
`decoded` is the outcome of `cv2.imread` (`none` when the image cannot
be decoded, in which case the script prints a diagnostic and returns);
`envWriteOk` is whether the filesystem lets `cv2.imwrite` create the
output file (e.g. whether `output_dir` exists). `cv2.imwrite` reports
failure by returning `False` rather than raising; the script discards
that return value, so only the `written` field depends on `envWriteOk`
and the success message is printed regardless. -/
def apply_hit_or_miss (image_path output_dir : String) (decoded : Option Img)
    (envWriteOk : Bool) : RunTrace :=
  match decoded with
  | none =>
      { errorMsg := some ("Error: Could not load image at " ++ image_path)
        shown := false
        written := none
        successMsg := none }
  | some image_gray =>
      let result := hit_or_miss_result image_gray
      let output_path := joinPath output_dir ("result_" ++ basename image_path)
      { errorMsg := none
        shown := true
        written := if envWriteOk then some (output_path, result) else none
        successMsg := some ("Result saved to: " ++ output_path ++ "\n") }

/-- A 1×1 raster whose only sample is exactly the threshold value 150. -/
def gray150 : Img := { rows := 1, cols := 1, pix := fun _ _ => 150 }

/-- The all-255 (white) 50×50 raster. -/
def white50 : Img := { rows := 50, cols := 50, pix := fun _ _ => 255 }

/-- A 1×1 raster with a single bright sample. -/
def spot1 : Img := { rows := 1, cols := 1, pix := fun _ _ => 200 }

/-! ## Helper lemmas -/

/-- The fuelled floor-square-root is correct once the fuel dominates the
argument: its value `s` satisfies `s² ≤ n < (s+1)²`. -/
theorem floorSqrtAux_spec : ∀ (fuel n : Nat), n ≤ fuel →
    floorSqrtAux fuel n * floorSqrtAux fuel n ≤ n ∧
      n < (floorSqrtAux fuel n + 1) * (floorSqrtAux fuel n + 1) := by
  intro fuel
  induction fuel with
  | zero =>
    intro n hn
    have : n = 0 := Nat.le_zero.mp hn
    subst this
    decide
  | succ fuel ih =>
    intro n hn
    simp only [floorSqrtAux]
    split
    · rename_i h2
      interval_cases n <;> decide
    · rename_i h2
      have h4 : n / 4 ≤ fuel := by omega
      have ihs := ih (n / 4) h4
      set s := floorSqrtAux fuel (n / 4) with hs
      have hlow : 4 * (s * s) ≤ n := by omega
      have hhigh : n < 4 * ((s + 1) * (s + 1)) := by omega
      have e1 : (2 * s) * (2 * s) = 4 * (s * s) := by ring
      have e2 : (2 * s + 1 + 1) * (2 * s + 1 + 1) = 4 * ((s + 1) * (s + 1)) := by ring
      split
      · rename_i h3
        exact ⟨h3, by omega⟩
      · rename_i h3
        exact ⟨by omega, by omega⟩

/-- `floorSqrt` really is the floor of the square root. -/
theorem floorSqrt_spec (n : Nat) :
    floorSqrt n * floorSqrt n ≤ n ∧ n < (floorSqrt n + 1) * (floorSqrt n + 1) :=
  floorSqrtAux_spec (n + 1) n (Nat.le_succ n)

theorem foldl_min_le_init (l : List Nat) : ∀ a : Nat, l.foldl min a ≤ a := by
  induction l with
  | nil => intro a; exact Nat.le_refl a
  | cons x xs ih => intro a; exact Nat.le_trans (ih (min a x)) (min_le_left a x)

theorem foldl_min_le_mem (l : List Nat) : ∀ (a v : Nat), v ∈ l → l.foldl min a ≤ v := by
  induction l with
  | nil => intro a v h; cases h
  | cons x xs ih =>
    intro a v h
    rcases List.mem_cons.mp h with rfl | h2
    · exact Nat.le_trans (foldl_min_le_init xs (min a v)) (min_le_right a v)
    · exact ih (min a x) v h2

theorem foldl_min_eq_init_or_mem (l : List Nat) :
    ∀ a : Nat, l.foldl min a = a ∨ l.foldl min a ∈ l := by
  induction l with
  | nil => intro a; exact Or.inl rfl
  | cons x xs ih =>
    intro a
    rcases ih (min a x) with h | h
    · rcases min_choice a x with h2 | h2
      · left
        show xs.foldl min (min a x) = a
        rw [h, h2]
      · right
        show xs.foldl min (min a x) ∈ x :: xs
        rw [h, h2]
        exact List.mem_cons_self x xs
    · exact Or.inr (List.mem_cons_of_mem x h)

theorem le_foldl_min (l : List Nat) :
    ∀ (a c : Nat), c ≤ a → (∀ v ∈ l, c ≤ v) → c ≤ l.foldl min a := by
  induction l with
  | nil => intro a c hc _; exact hc
  | cons x xs ih =>
    intro a c hc h
    exact ih (min a x) c (le_min hc (h x (List.mem_cons_self x xs)))
      (fun v hv => h v (List.mem_cons_of_mem x hv))

/-- The thresholded image is two-valued. -/
theorem binary_image_pix_cases (img : Img) (y x : Nat) :
    (binary_image img).pix y x = 0 ∨ (binary_image img).pix y x = 255 := by
  simp only [binary_image, threshold]
  split
  · exact Or.inr rfl
  · exact Or.inl rfl

/-- The complement of the thresholded image is two-valued. -/
theorem complement_image_pix_cases (img : Img) (y x : Nat) :
    (complement_image img).pix y x = 0 ∨ (complement_image img).pix y x = 255 := by
  rcases binary_image_pix_cases img y x with h | h <;>
    · simp only [complement_image, bitwise_not]
      rw [h]
      omega

theorem sampleAt_cases (src : Img)
    (h : ∀ y x, src.pix y x = 0 ∨ src.pix y x = 255) (py px : Int) :
    sampleAt src py px = 0 ∨ sampleAt src py px = 255 := by
  unfold sampleAt
  split
  · exact h _ _
  · exact Or.inr rfl

/-- Erosion of a two-valued image is two-valued. -/
theorem erodePix_cases (src : Img) (k : Kernel)
    (h : ∀ y x, src.pix y x = 0 ∨ src.pix y x = 255) (y x : Nat) :
    erodePix src k y x = 0 ∨ erodePix src k y x = 255 := by
  unfold erodePix
  rcases foldl_min_eq_init_or_mem _ 255 with h2 | h2
  · exact Or.inr h2
  · rcases List.mem_map.mp h2 with ⟨p, _, hpv⟩
    rw [← hpv]
    exact sampleAt_cases src h _ _

theorem erosion_hit_pix_cases (img : Img) (y x : Nat) :
    (erosion_hit img).pix y x = 0 ∨ (erosion_hit img).pix y x = 255 :=
  erodePix_cases _ _ (binary_image_pix_cases img) y x

theorem erosion_miss_pix_cases (img : Img) (y x : Nat) :
    (erosion_miss img).pix y x = 0 ∨ (erosion_miss img).pix y x = 255 :=
  erodePix_cases _ _ (complement_image_pix_cases img) y x

theorem land_binary_ne_zero_iff (a b : Nat) (ha : a = 0 ∨ a = 255) (hb : b = 0 ∨ b = 255) :
    a &&& b ≠ 0 ↔ a ≠ 0 ∧ b ≠ 0 := by
  rcases ha with rfl | rfl <;> rcases hb with rfl | rfl <;> decide

theorem land_binary_idem (a b : Nat) (ha : a = 0 ∨ a = 255) (hb : b = 0 ∨ b = 255) :
    (a &&& b) &&& (a &&& b) = a &&& b := by
  rcases ha with rfl | rfl <;> rcases hb with rfl | rfl <;> decide

theorem land_binary_zero_right (a : Nat) (ha : a = 0 ∨ a = 255) : a &&& 0 = 0 := by
  rcases ha with rfl | rfl <;> decide

theorem hit_or_miss_result_pix (img : Img) (y x : Nat) :
    (hit_or_miss_result img).pix y x
      = (erosion_hit img).pix y x &&& (erosion_miss img).pix y x := rfl

/-- A kernel cell that is in range and true is in the support list. -/
theorem pair_mem_suppList (k : Kernel) (i j : Nat) (hi : i < k.rows) (hj : j < k.cols)
    (he : k.elem i j = true) : (i, j) ∈ suppList k := by
  unfold suppList
  refine List.mem_filter.mpr ⟨?_, he⟩
  exact List.mem_flatMap.mpr
    ⟨i, List.mem_range.mpr hi, List.mem_map.mpr ⟨j, List.mem_range.mpr hj, rfl⟩⟩

theorem mem_suppList_elem (k : Kernel) (p : Nat × Nat) (hp : p ∈ suppList k) :
    k.elem p.1 p.2 = true :=
  (List.mem_filter.mp hp).2

/-- Sampling at in-bounds natural coordinates is just the pixel function. -/
theorem sampleAt_inBounds (src : Img) (y x : Nat) (hy : y < src.rows) (hx : x < src.cols) :
    sampleAt src (y : Int) (x : Int) = src.pix y x := by
  unfold sampleAt
  rw [if_pos]
  · simp
  · exact ⟨Int.natCast_nonneg y, by exact_mod_cast hy, Int.natCast_nonneg x, by exact_mod_cast hx⟩

/-- The eroded value at `(y, x)` is at most the source value under any
true kernel cell whose translated position is in bounds. -/
theorem erodePix_le_pix (src : Img) (k : Kernel) (y x i j : Nat)
    (hp : (i, j) ∈ suppList k) (py px : Nat)
    (hpy : (y : Int) + (i : Int) - (k.anchorY : Int) = (py : Int))
    (hpx : (x : Int) + (j : Int) - (k.anchorX : Int) = (px : Int))
    (hby : py < src.rows) (hbx : px < src.cols) :
    erodePix src k y x ≤ src.pix py px := by
  have h := foldl_min_le_mem
    ((suppList k).map (fun p =>
      sampleAt src ((y : Int) + (p.1 : Int) - (k.anchorY : Int))
        ((x : Int) + (p.2 : Int) - (k.anchorX : Int)))) 255 _
    (List.mem_map_of_mem _ hp)
  dsimp only at h
  rw [hpy, hpx, sampleAt_inBounds src py px hby hbx] at h
  exact h

theorem hit_kernel_anchor_mem : ((10, 10) : Nat × Nat) ∈ suppList hit_kernel :=
  pair_mem_suppList hit_kernel 10 10 (by decide) (by decide) (by decide)

theorem miss_kernel_ring_mem_left : ((20, 0) : Nat × Nat) ∈ suppList miss_kernel :=
  pair_mem_suppList miss_kernel 20 0 (by decide) (by decide) (by decide)

theorem miss_kernel_ring_mem_right : ((20, 30) : Nat × Nat) ∈ suppList miss_kernel :=
  pair_mem_suppList miss_kernel 20 30 (by decide) (by decide) (by decide)

theorem binary_image_spot1_pix (y x : Nat) : (binary_image spot1).pix y x = 255 := rfl

theorem complement_image_spot1_pix (y x : Nat) : (complement_image spot1).pix y x = 0 := rfl

theorem binary_image_white50_pix (y x : Nat) : (binary_image white50).pix y x = 255 := rfl

theorem complement_image_white50_pix (y x : Nat) : (complement_image white50).pix y x = 0 := rfl

/-- On `spot1` the hit erosion fires at the only pixel: every sample
under the hit kernel is either the bright in-bounds pixel or the
maximal border value. -/
theorem erosion_hit_spot1 : (erosion_hit spot1).pix 0 0 = 255 := by
  show erodePix (binary_image spot1) hit_kernel 0 0 = 255
  unfold erodePix
  apply Nat.le_antisymm (foldl_min_le_init _ 255)
  apply le_foldl_min _ 255 255 (Nat.le_refl 255)
  intro v hv
  rcases List.mem_map.mp hv with ⟨p, hp, hpv⟩
  rw [← hpv]
  unfold sampleAt
  split
  · rw [binary_image_spot1_pix]
  · exact Nat.le_refl 255

/-- On `spot1` the miss erosion also fires: the only in-bounds position
under the miss kernel would be its anchor, which the carve-out removed
from the support, so every support sample is the border value. -/
theorem erosion_miss_spot1 : (erosion_miss spot1).pix 0 0 = 255 := by
  show erodePix (complement_image spot1) miss_kernel 0 0 = 255
  unfold erodePix
  apply Nat.le_antisymm (foldl_min_le_init _ 255)
  apply le_foldl_min _ 255 255 (Nat.le_refl 255)
  intro v hv
  rcases List.mem_map.mp hv with ⟨p, hp, hpv⟩
  rw [← hpv]
  unfold sampleAt
  split
  · rename_i hin
    exfalso
    have hrows : (complement_image spot1).rows = 1 := rfl
    have hcols : (complement_image spot1).cols = 1 := rfl
    rw [hrows, hcols, show miss_kernel.anchorY = 20 from rfl,
      show miss_kernel.anchorX = 20 from rfl] at hin
    have hp1 : p.1 = 20 ∧ p.2 = 20 := by omega
    have he := mem_suppList_elem miss_kernel p hp
    rw [hp1.1, hp1.2] at he
    exact absurd he (by decide)
  · exact Nat.le_refl 255

theorem spot1_detection_pix : (hit_or_miss_result spot1).pix 0 0 = 255 := by
  rw [hit_or_miss_result_pix, erosion_hit_spot1, erosion_miss_spot1]
  decide

/-! ## Claims -/

/-- C1, counterexample: the claimed rule "binarized value is 255 iff
the raster sample is ≥ 150" fails at a sample of exactly 150, because
`cv2.threshold` with `THRESH_BINARY` uses the strict comparison
`src > thresh`; the binarized value there is 0. -/
theorem binarize_ge_threshold_counterexample :
    ¬ (((binary_image gray150).pix 0 0 = 255) ↔ 150 ≤ gray150.pix 0 0) := by
  decide

/-- C1 (amended): for every raster and cell, the binarized mask value
is 255 iff the raster sample is strictly greater than 150, and 0 iff
the sample is at most 150. -/
theorem binarize_strict_threshold (img : Img) (y x : Nat) :
    ((binary_image img).pix y x = 255 ↔ 150 < img.pix y x) ∧
    ((binary_image img).pix y x = 0 ↔ img.pix y x ≤ 150) := by
  simp only [binary_image, threshold]
  split <;> rename_i h <;> omega

/-- C2: the detection mask is foreground (nonzero) at a cell iff both
the hit-erosion and the miss-erosion are foreground there, and AND-ing
the same pair a second time yields the same detection value. -/
theorem detection_and_iff_idem (img : Img) (y x : Nat) :
    ((hit_or_miss_result img).pix y x ≠ 0 ↔
      (erosion_hit img).pix y x ≠ 0 ∧ (erosion_miss img).pix y x ≠ 0) ∧
    (bitwise_and (hit_or_miss_result img) (hit_or_miss_result img)).pix y x
      = (hit_or_miss_result img).pix y x := by
  have ha := erosion_hit_pix_cases img y x
  have hb := erosion_miss_pix_cases img y x
  constructor
  · rw [hit_or_miss_result_pix]
    exact land_binary_ne_zero_iff _ _ ha hb
  · show (hit_or_miss_result img).pix y x &&& (hit_or_miss_result img).pix y x
      = (hit_or_miss_result img).pix y x
    rw [hit_or_miss_result_pix]
    exact land_binary_idem _ _ ha hb

/-- C3: when the source image cannot be decoded, the run prints a
diagnostic naming the failed path, shows no visualization, writes no
output file, and prints no success message. -/
theorem load_failure_aborts (image_path output_dir : String) (envWriteOk : Bool) :
    (apply_hit_or_miss image_path output_dir none envWriteOk).errorMsg
        = some ("Error: Could not load image at " ++ image_path) ∧
    (apply_hit_or_miss image_path output_dir none envWriteOk).shown = false ∧
    (apply_hit_or_miss image_path output_dir none envWriteOk).written = none ∧
    (apply_hit_or_miss image_path output_dir none envWriteOk).successMsg = none :=
  ⟨rfl, rfl, rfl, rfl⟩

/-- C4: the miss structuring element is 40×40; it is the inscribed
ellipse with rows 10–29 and columns 10–29 zeroed, so every cell of the
central 20×20 block is false, and outside that block it agrees with the
base ellipse. -/
theorem miss_kernel_carveout :
    miss_kernel.rows = 40 ∧ miss_kernel.cols = 40 ∧
    (∀ i j, 10 ≤ i → i < 30 → 10 ≤ j → j < 30 → miss_kernel.elem i j = false) ∧
    (∀ i j, ¬(10 ≤ i ∧ i < 30 ∧ 10 ≤ j ∧ j < 30) →
      miss_kernel.elem i j = (getStructuringElementEllipse 40).elem i j) := by
  refine ⟨rfl, rfl, ?_, ?_⟩
  · intro i j h1 h2 h3 h4
    show (if 10 ≤ i ∧ i < 30 ∧ 10 ≤ j ∧ j < 30 then false
      else (getStructuringElementEllipse 40).elem i j) = false
    rw [if_pos ⟨h1, h2, h3, h4⟩]
  · intro i j h
    show (if 10 ≤ i ∧ i < 30 ∧ 10 ≤ j ∧ j < 30 then false
      else (getStructuringElementEllipse 40).elem i j)
      = (getStructuringElementEllipse 40).elem i j
    rw [if_neg h]

/-- C4, witness: a concrete carved cell and a concrete untouched cell. -/
theorem miss_kernel_carveout_witness :
    miss_kernel.elem 15 15 = false ∧
    miss_kernel.elem 0 0 = (getStructuringElementEllipse 40).elem 0 0 :=
  ⟨miss_kernel_carveout.2.2.1 15 15 (by decide) (by decide) (by decide) (by decide),
   miss_kernel_carveout.2.2.2 0 0 (by decide)⟩

/-- C5: on the all-255 50×50 raster, at every cell the binarized mask
is 255, its complement is 0, the miss erosion is 0, and hence the final
detection mask is 0 whatever the hit erosion gives. -/
theorem white_input_yields_empty_detection (y x : Nat) (hy : y < 50) (hx : x < 50) :
    (binary_image white50).pix y x = 255 ∧
    (complement_image white50).pix y x = 0 ∧
    (erosion_miss white50).pix y x = 0 ∧
    (hit_or_miss_result white50).pix y x = 0 := by
  have hmiss : (erosion_miss white50).pix y x = 0 := by
    show erodePix (complement_image white50) miss_kernel y x = 0
    apply Nat.le_zero.mp
    rcases Nat.lt_or_ge x 20 with hx20 | hx20
    · have h := erodePix_le_pix (complement_image white50) miss_kernel y x 20 30
        miss_kernel_ring_mem_right y (x + 10)
        (by rw [show miss_kernel.anchorY = 20 from rfl]; omega)
        (by rw [show miss_kernel.anchorX = 20 from rfl]; omega)
        (by show y < 50; omega) (by show x + 10 < 50; omega)
      rw [complement_image_white50_pix] at h
      exact h
    · have h := erodePix_le_pix (complement_image white50) miss_kernel y x 20 0
        miss_kernel_ring_mem_left y (x - 20)
        (by rw [show miss_kernel.anchorY = 20 from rfl]; omega)
        (by rw [show miss_kernel.anchorX = 20 from rfl]; omega)
        (by show y < 50; omega) (by show x - 20 < 50; omega)
      rw [complement_image_white50_pix] at h
      exact h
  refine ⟨binary_image_white50_pix y x, complement_image_white50_pix y x, hmiss, ?_⟩
  rw [hit_or_miss_result_pix, hmiss]
  exact land_binary_zero_right _ (erosion_hit_pix_cases white50 y x)

/-- C5, witness: the property instantiated at the corner cell. -/
theorem white_input_yields_empty_detection_witness :
    (binary_image white50).pix 0 0 = 255 ∧
    (complement_image white50).pix 0 0 = 0 ∧
    (erosion_miss white50).pix 0 0 = 0 ∧
    (hit_or_miss_result white50).pix 0 0 = 0 :=
  white_input_yields_empty_detection 0 0 (by decide) (by decide)

/-- C6: complementing the binarized mask twice reproduces it exactly at
every cell, for every input raster. -/
theorem complement_involutive_on_binary (img : Img) (y x : Nat) :
    (bitwise_not (bitwise_not (binary_image img))).pix y x = (binary_image img).pix y x := by
  show 255 - (255 - (binary_image img).pix y x) = (binary_image img).pix y x
  rcases binary_image_pix_cases img y x with h | h <;> rw [h]

/-- C7: every grid the pipeline produces has exactly the input raster's
dimensions; the two structuring elements have their own fixed sizes. -/
theorem pipeline_preserves_dims (img : Img) :
    (binary_image img).rows = img.rows ∧ (binary_image img).cols = img.cols ∧
    (complement_image img).rows = img.rows ∧ (complement_image img).cols = img.cols ∧
    (erosion_hit img).rows = img.rows ∧ (erosion_hit img).cols = img.cols ∧
    (erosion_miss img).rows = img.rows ∧ (erosion_miss img).cols = img.cols ∧
    (hit_or_miss_result img).rows = img.rows ∧ (hit_or_miss_result img).cols = img.cols ∧
    hit_kernel.rows = 20 ∧ hit_kernel.cols = 20 ∧
    miss_kernel.rows = 40 ∧ miss_kernel.cols = 40 := by
  refine ⟨rfl, rfl, rfl, rfl, ?_, ?_, ?_, ?_, ?_, ?_, rfl, rfl, rfl, rfl⟩ <;>
    dsimp only [erosion_hit, erosion_miss, hit_or_miss_result, bitwise_and, erode,
      complement_image, bitwise_not, binary_image, threshold]

/-- C9: at every in-bounds cell, a foreground detection implies the
binarized mask is foreground there: the hit kernel covers its own
anchor, so the hit erosion is bounded by the binarized value. -/
theorem detection_foreground_implies_binary_foreground (img : Img) (y x : Nat)
    (hy : y < img.rows) (hx : x < img.cols)
    (hfg : (hit_or_miss_result img).pix y x ≠ 0) :
    (binary_image img).pix y x = 255 := by
  have ha := erosion_hit_pix_cases img y x
  have hb := erosion_miss_pix_cases img y x
  have hand := (land_binary_ne_zero_iff _ _ ha hb).mp
    (by rw [← hit_or_miss_result_pix]; exact hfg)
  have hhit255 : (erosion_hit img).pix y x = 255 := by
    rcases ha with h | h
    · exact absurd h hand.1
    · exact h
  have hle : (erosion_hit img).pix y x ≤ (binary_image img).pix y x :=
    erodePix_le_pix (binary_image img) hit_kernel y x 10 10 hit_kernel_anchor_mem y x
      (by rw [show hit_kernel.anchorY = 10 from rfl]; omega)
      (by rw [show hit_kernel.anchorX = 10 from rfl]; omega)
      hy hx
  rcases binary_image_pix_cases img y x with h | h
  · rw [hhit255, h] at hle
    omega
  · exact h

/-- C9, witness: on `spot1` the detection mask is foreground at (0,0),
and indeed the binarized mask is 255 there. -/
theorem detection_foreground_implies_binary_foreground_witness :
    (binary_image spot1).pix 0 0 = 255 :=
  detection_foreground_implies_binary_foreground spot1 0 0 (by decide) (by decide)
    (by rw [spot1_detection_pix]; decide)

/-- C10: when the image loads but the write environment fails (e.g. the
output directory does not exist), the run still completes: no error is
reported, the figure is shown, no file is written, yet the success
message naming the output path is printed — and the write outcome
affects nothing except the `written` field. -/
theorem write_failure_silently_ignored (image_path output_dir : String) (img : Img) :
    (apply_hit_or_miss image_path output_dir (some img) false).errorMsg = none ∧
    (apply_hit_or_miss image_path output_dir (some img) false).shown = true ∧
    (apply_hit_or_miss image_path output_dir (some img) false).written = none ∧
    (apply_hit_or_miss image_path output_dir (some img) false).successMsg =
      some ("Result saved to: "
        ++ joinPath output_dir ("result_" ++ basename image_path) ++ "\n") ∧
    (apply_hit_or_miss image_path output_dir (some img) false).errorMsg =
      (apply_hit_or_miss image_path output_dir (some img) true).errorMsg ∧
    (apply_hit_or_miss image_path output_dir (some img) false).shown =
      (apply_hit_or_miss image_path output_dir (some img) true).shown ∧
    (apply_hit_or_miss image_path output_dir (some img) false).successMsg =
      (apply_hit_or_miss image_path output_dir (some img) true).successMsg :=
  ⟨rfl, rfl, rfl, rfl, rfl, rfl, rfl⟩
